import Mathlib

/-! # leakchk: the block registry of `leakchk.c`

A shallow embedding of the allocation tracker in `src/leakchk.c`, built with
every feature macro enabled (thread safety, location tracking, function
names, magic check), followed by the properties of the registry that were
checked against it.

Storage model.  A pointer is a natural number, `0` is `NULL`.  The heap maps
the address of a header to the `struct lc_block` stored there; an address
that holds no header (never handed out, or already released) is not
accessible, and the embedding stops with a fault at the first access to such
an address, exactly where the C program has undefined behaviour.  The
underlying allocator is an external collaborator: every tracked operation
receives the allocator's answer as an argument (the address it returned, and
for `malloc` the indeterminate bytes the fresh storage holds), and hands it
the number of bytes the source asks for, the `size_t` sum `LC_BLOCKSZ + size`.
A block of fewer bytes than a header holds no header, and the payload of a
block ends where the block ends.  A call of `csl_die` ends the program; the
fault it leaves records the state of the registry at that call.
-/

namespace Leakchk

/-- The header `struct lc_block` (leakchk.c, lines 47-65).  The three
    `const char *` / `unsigned` call-site fields hold the addresses and the
    line number that were passed in. -/
structure lc_block where
  size : Nat
  function : Nat
  file : Nat
  line : Nat
  prev : Nat
  next : Nat
  magic : Nat
  deriving DecidableEq, Repr

/-- The file-scope state of leakchk.c: `blk_count`, `head_blk`, `last_blk`
    (lines 96-98), the mutex `mtx` (line 69, `true` when held), and the
    storage that holds the headers. -/
structure State where
  heap : Nat → Option lc_block
  blk_count : Nat
  head_blk : Nat
  last_blk : Nat
  mtx : Bool

/-- Ways in which a call fails to return normally. -/
inductive Fault where
  /-- `csl_die` was called from `lc_dofree`; `at_abort` is the state of the
      registry at that call. -/
  | die_free (at_abort : State)
  /-- `csl_die` was called from `lc_dorealloc`; `at_abort` is the state of
      the registry at that call. -/
  | die_realloc (at_abort : State)
  /-- A member of the null pointer was read or written. -/
  | null_deref
  /-- A header was read or written at an address that holds no live header,
      or bytes were written past the end of the block at that address. -/
  | bad_access (addr : Nat)
  /-- `pthread_mutex_lock` on the mutex the caller already holds. -/
  | deadlock
  /-- The traversal loop did not finish within the given number of steps. -/
  | out_of_fuel

/-- The constant `LC_MAGICNUMBER`, 0x534C4C43 (line 44). -/
def LC_MAGICNUMBER : Nat := 0x534C4C43

/-- The macro `LC_BLOCKSZ`, `sizeof (struct lc_block)` (lines 153-154): 56
    bytes with 8-byte `size_t` and pointers and 4-byte `unsigned`. -/
def LC_BLOCKSZ : Nat := 56

/-- Number of values of `size_t` (64-bit). -/
def SIZE_MOD : Nat := 2 ^ 64

/-- The macro `LC_PTROF` (lines 90-91): the user pointer of a header. -/
def LC_PTROF (x : Nat) : Nat := x + LC_BLOCKSZ

/-- The macro `LC_BLKOF` (lines 93-94): the header of a user pointer. -/
def LC_BLKOF (x : Nat) : Nat := x - LC_BLOCKSZ

/-- The argument `LC_BLOCKSZ + size` of the calls to `malloc` and `realloc`
    (lines 160, 177, 209), an addition in `size_t`. -/
def lc_request (size : Nat) : Nat := (LC_BLOCKSZ + size) % SIZE_MOD

/-- The state before any tracked call: the statics as initialised at lines
    96-98, the mutex free, and no header in storage. -/
def lc_initial : State :=
  { heap := fun _ => none, blk_count := 0, head_blk := 0, last_blk := 0, mtx := false }

/-- Reading the header at address `a` (any `a->field` on the right of an
    assignment or in a condition). -/
def load (s : State) (a : Nat) : Except Fault lc_block :=
  if a = 0 then .error .null_deref
  else match s.heap a with
    | some b => .ok b
    | none => .error (.bad_access a)

/-- Storage with the header at `a` replaced by `b`. -/
def put (s : State) (a : Nat) (b : lc_block) : State :=
  { s with heap := fun x => if x = a then some b else s.heap x }

/-- Writing one field of the header at address `a` (`a->field = v`). -/
def modify (s : State) (a : Nat) (f : lc_block → lc_block) : Except Fault State :=
  match load s a with
  | .ok b => .ok (put s a (f b))
  | .error e => .error e

/-- The assignment `a->next = v`. -/
def set_next (s : State) (a v : Nat) : Except Fault State :=
  modify s a (fun b => { b with next := v })

/-- The assignment `a->prev = v`. -/
def set_prev (s : State) (a v : Nat) : Except Fault State :=
  modify s a (fun b => { b with prev := v })

/-- The assignment `a->size = v`. -/
def set_size (s : State) (a v : Nat) : Except Fault State :=
  modify s a (fun b => { b with size := v })

/-- The macro `LC_BEGINCRIT` (lines 77-78): `pthread_mutex_lock (&mtx)`. -/
def LC_BEGINCRIT (s : State) : Except Fault State :=
  if s.mtx then .error .deadlock else .ok { s with mtx := true }

/-- The macro `LC_ENDCRIT` (lines 79-80): `pthread_mutex_unlock (&mtx)`. -/
def LC_ENDCRIT (s : State) : State :=
  { s with mtx := false }

/-- The library call `malloc (req)`: the allocator answers with the address
    `a` (`0` when it fails) of a block of `req` bytes whose contents `g` are
    indeterminate.  A block of fewer than `LC_BLOCKSZ` bytes does not hold a
    `struct lc_block`: no header is stored at `a` then, and the first access
    to one there is a fault. -/
def malloc (s : State) (req a : Nat) (g : lc_block) : State :=
  if a = 0 then s
  else if LC_BLOCKSZ ≤ req then put s a g
  else { s with heap := fun x => if x = a then none else s.heap x }

/-- The library call `realloc (pblk, req)`: the allocator answers with `na`.
    `0` is failure and leaves the old storage as it is.  Otherwise the block
    now has `req` bytes at `na`: with fewer than `LC_BLOCKSZ` bytes it holds
    no header any more; with `na == pblk` it is resized in place; any other
    address receives a copy of the header and the old storage is released. -/
def realloc (s : State) (pblk req na : Nat) : State :=
  if na = 0 then s
  else if req < LC_BLOCKSZ then
    { s with heap := fun x => if x = na then none else if x = pblk then none else s.heap x }
  else if na = pblk then s
  else { s with heap := fun x => if x = na then s.heap pblk
                                 else if x = pblk then none else s.heap x }

/-- The library call `memset (ptr, 0, size)` of `lc_docalloc` (line 187) on
    the payload of the block of `req` bytes at `blk`: `size` bytes are
    written from offset `LC_BLOCKSZ` on.  The payload is not part of the
    registry state; writing past the end of the block is a fault. -/
def memset (s : State) (blk req size : Nat) : Except Fault State :=
  if LC_BLOCKSZ + size ≤ req then .ok s else .error (.bad_access (blk + req))

/-- The library call `free (blk)`: the storage at `blk` is released. -/
def free (s : State) (blk : Nat) : State :=
  { s with heap := fun x => if x = blk then none else s.heap x }

/-- The function `add_block` (lines 120-131). -/
def add_block (s : State) (blk : Nat) : Except Fault State := do
  let s := { s with blk_count := (s.blk_count + 1) % SIZE_MOD }
  let s ← (if s.head_blk = 0 then
      pure { s with head_blk := blk }
    else do
      let s ← set_next s s.last_blk blk
      set_prev s blk s.last_blk)
  pure { s with last_blk := blk }

/-- The function `fill_block` (lines 133-151): `size`, `file`, `line`,
    `function`, `magic` and `next` are written; `prev` is not. -/
def fill_block (s : State) (blk size function file line : Nat) : Except Fault State :=
  modify s blk (fun b =>
    { b with size := size, file := file, line := line, function := function,
             magic := LC_MAGICNUMBER, next := 0 })

/-- The function `lc_domalloc` (lines 157-172); `a` and `g` are the answer of
    `malloc`.  The result is the new state and the returned pointer. -/
def lc_domalloc (s : State) (a : Nat) (g : lc_block) (size function file line : Nat) :
    Except Fault (State × Nat) := do
  let s ← LC_BEGINCRIT s
  let s := malloc s (lc_request size) a g
  if a = 0 then
    pure (s, 0)
  else do
    let s ← fill_block s a size function file line
    let s ← add_block s a
    let s := LC_ENDCRIT s
    pure (s, LC_PTROF a)

/-- The function `lc_docalloc` (lines 174-192); `a` and `g` are the answer of
    `malloc`.  The result is the new state and the returned pointer. -/
def lc_docalloc (s : State) (a : Nat) (g : lc_block) (size function file line : Nat) :
    Except Fault (State × Nat) := do
  let s ← LC_BEGINCRIT s
  let s := malloc s (lc_request size) a g
  if a = 0 then
    pure (s, 0)
  else do
    let s ← fill_block s a size function file line
    let s ← add_block s a
    let ptr := LC_PTROF a
    let s ← memset s a (lc_request size) size
    let s := LC_ENDCRIT s
    pure (s, ptr)

/-- The macro `lc_checkmagic` (lines 194-195): the `magic` field of the
    header in front of `ptr` is read and compared with `LC_MAGICNUMBER`. -/
def lc_checkmagic (s : State) (ptr : Nat) : Except Fault Bool := do
  let b ← load s (LC_BLKOF ptr)
  pure (decide (b.magic = LC_MAGICNUMBER))

set_option linter.unusedVariables false in
/-- The function `lc_dorealloc` (lines 197-232); `na` is the answer of
    `realloc`.  The result is the new state and the returned pointer.  The
    call-site arguments are accepted and, as in the source, not used. -/
def lc_dorealloc (s : State) (ptr na size : Nat) (function file line : Nat) :
    Except Fault (State × Nat) := do
  let ok ← lc_checkmagic s ptr
  if !ok then
    throw (Fault.die_realloc s)
  else do
    let s ← LC_BEGINCRIT s
    let pblk := LC_BLKOF ptr
    let pb ← load s pblk
    let next := pb.next
    let prev := pb.prev
    let s := realloc s pblk (lc_request size) na
    let nblk := na
    let s := if pblk = s.head_blk then { s with head_blk := nblk } else s
    let s ← (if pblk = s.last_blk then do
        let lb ← load s s.last_blk
        pure { s with last_blk := lb.prev }
      else pure s)
    if nblk = 0 then
      pure (s, 0)
    else do
      let s ← set_size s nblk size
      if nblk = pblk then
        pure (s, ptr)
      else do
        let s ← (if next ≠ 0 then set_prev s next nblk else pure s)
        let s ← (if prev ≠ 0 then set_next s prev nblk else pure s)
        let s := LC_ENDCRIT s
        pure (s, LC_PTROF nblk)

/-- The function `lc_dofree` (lines 234-254). -/
def lc_dofree (s : State) (ptr : Nat) : Except Fault State := do
  let ok ← lc_checkmagic s ptr
  if !ok then
    throw (Fault.die_free s)
  else do
    let s ← LC_BEGINCRIT s
    let blk := LC_BLKOF ptr
    let b ← load s blk
    let s ← (if b.prev ≠ 0 then
        set_next s b.prev b.next
      else do
        let s := { s with head_blk := b.next }
        set_prev s b.next 0)
    let s := { s with blk_count := (s.blk_count + SIZE_MOD - 1) % SIZE_MOD }
    let s := free s blk
    pure (LC_ENDCRIT s)

/-- The function `lc_getallocations` (lines 256-258). -/
def lc_getallocations (s : State) : Nat := s.head_blk

/-- The function `lc_countallocations` (lines 260-262). -/
def lc_countallocations (s : State) : Nat := s.blk_count

/-- The function `lc_nextblock` (lines 264-266). -/
def lc_nextblock (s : State) (blk : Nat) : Except Fault Nat := do
  let b ← load s blk
  pure (if b.next ≠ 0 then b.next else 0)

/-- The traversal loop of `lc_printblocks` (lines 295-300), which is also the
    loop a caller writes with `lc_getallocations` and `lc_nextblock`: the
    addresses visited from `alloc` on, in order.  The loop of the source has
    no bound; the embedding gives it `fuel` steps. -/
def lc_traverse (s : State) : Nat → Nat → Except Fault (List Nat)
  | 0, alloc => if alloc = 0 then .ok [] else .error .out_of_fuel
  | fuel + 1, alloc =>
    if alloc = 0 then .ok []
    else do
      let nxt ← lc_nextblock s alloc
      let rest ← lc_traverse s fuel nxt
      pure (alloc :: rest)

/-- The walk over `prev` from `alloc` on, the mirror image of
    `lc_traverse`. -/
def walk_prev (s : State) : Nat → Nat → Except Fault (List Nat)
  | 0, alloc => if alloc = 0 then .ok [] else .error .out_of_fuel
  | fuel + 1, alloc =>
    if alloc = 0 then .ok []
    else do
      let b ← load s alloc
      let rest ← walk_prev s fuel b.prev
      pure (alloc :: rest)

/-- The well-formedness of the registry: following `next` from `head_blk`
    visits exactly `blk_count` headers and ends at `last_blk`, the head has
    no `prev`, the walk over `prev` from `last_blk` visits the same headers
    in reverse, and `head_blk` and `last_blk` are both null exactly when no
    header is visited. -/
def lc_wellformed (s : State) : Bool :=
  match lc_traverse s s.blk_count s.head_blk, walk_prev s s.blk_count s.last_blk with
  | .ok fwd, .ok bwd =>
    decide (fwd.length = s.blk_count) && decide (bwd = fwd.reverse) &&
    decide (fwd.getLast? = if s.last_blk = 0 then none else some s.last_blk) &&
    decide (fwd.head? = if s.head_blk = 0 then none else some s.head_blk) &&
    (match load s s.head_blk with
     | .ok b => decide (b.prev = 0)
     | .error _ => decide (s.head_blk = 0))
  | _, _ => false

/-- Storage as `malloc` hands it out when every byte happens to be zero. -/
def zeroed : lc_block :=
  { size := 0, function := 0, file := 0, line := 0, prev := 0, next := 0, magic := 0 }

/-- A tracked call of a client program, together with the answer the
    underlying allocator gives to it. -/
inductive Call where
  /-- The call `lc_domalloc (size, function, file, line)`; `malloc` answers
      `a`, `g`. -/
  | domalloc (a : Nat) (g : lc_block) (size function file line : Nat)
  /-- The call `lc_docalloc (size, function, file, line)`; `malloc` answers
      `a`, `g`. -/
  | docalloc (a : Nat) (g : lc_block) (size function file line : Nat)
  /-- The call `lc_dorealloc (ptr, size, function, file, line)`; `realloc`
      answers `na`. -/
  | dorealloc (ptr na size function file line : Nat)
  /-- The call `lc_dofree (ptr)`. -/
  | dofree (ptr : Nat)

/-- One tracked call, the returned pointer dropped. -/
def step (s : State) : Call → Except Fault State
  | .domalloc a g size function file line =>
    (lc_domalloc s a g size function file line).map Prod.fst
  | .docalloc a g size function file line =>
    (lc_docalloc s a g size function file line).map Prod.fst
  | .dorealloc ptr na size function file line =>
    (lc_dorealloc s ptr na size function file line).map Prod.fst
  | .dofree ptr => lc_dofree s ptr

/-- A client program: the tracked calls in order, stopping at the first one
    that does not return. -/
def run (s : State) : List Call → Except Fault State
  | [] => .ok s
  | c :: cs => do
    let s ← step s c
    run s cs

/-- The registry as a client sees it after a run: `lc_countallocations ()`,
    `lc_getallocations ()`, `last_blk`, and the traversal with `fuel`
    steps. -/
def observe (fuel : Nat) (s : State) : Nat × Nat × Nat × Except Fault (List Nat) :=
  (lc_countallocations s, lc_getallocations s, s.last_blk,
   lc_traverse s fuel (lc_getallocations s))

/-- The size recorded in the header at `x`, when a header is stored there. -/
def size_at (s : State) (x : Nat) : Option Nat := (s.heap x).map (fun b => b.size)

/-- The example call `lc_domalloc (23, ...)` of `example.c`, line 8, answered
    with zero-filled storage at address 4096. -/
def alloc_A : Call := .domalloc 4096 zeroed 23 1 2 8

/-- A second example allocation, answered with zero-filled storage at 8192. -/
def alloc_B : Call := .domalloc 8192 zeroed 5 1 2 9

/-- A third example allocation, answered with zero-filled storage at 12288. -/
def alloc_C : Call := .domalloc 12288 zeroed 7 1 2 10

/-- The example allocation `A` again, this time answered with storage whose
    bytes at the offset of `prev` are not zero. -/
def alloc_A_dirty : Call := .domalloc 4096 { zeroed with prev := 57005 } 23 1 2 8

/-- The state a client program ends in; the initial state stands in when
    the program does not run to its end. -/
def final_state (cs : List Call) : State :=
  match run lc_initial cs with
  | .ok s => s
  | .error _ => lc_initial

/-- The registry after the two example allocations `A` and `B`. -/
def two_blocks : State := final_state [alloc_A, alloc_B]

/-- What a call that returns a pointer leaves behind: the pointer, then the
    registry as a client sees it. -/
def observe_call (fuel : Nat) (r : State × Nat) :
    Nat × Nat × Nat × Nat × Except Fault (List Nat) :=
  (r.2, observe fuel r.1)

/-- The error code `LC_PTHREAD_ERROR` (leakchk.h, line 47). -/
def LC_PTHREAD_ERROR : Nat := 1

/-- The function `lc_init` (lines 100-109); `result` is the answer of
    `pthread_mutex_init`, which leaves the mutex free when it is 0.  The
    result is the new state and the returned code. -/
def lc_init (s : State) (result : Nat) : State × Nat :=
  if result ≠ 0 then (s, LC_PTHREAD_ERROR) else ({ s with mtx := false }, 0)

/-- What one call of `fprintf` writes to the stream: the summary line of
    `lc_deinit` (line 113) with the count it prints, or the record of
    `lc_printblock` (lines 274-289) with the address, size, file, line and
    function it prints. -/
inductive Output where
  /-- The line "LEAKCHK: `count` tracked allocations have not been freed:". -/
  | summary (count : Nat)
  /-- The record "LC_BLOCK @`addr`: size: `size`, allocated in `file`:`line`
      (function `function`)". -/
  | block (addr size file line function : Nat)
  deriving DecidableEq, Repr

/-- The function `lc_printblock` (lines 273-290): what it writes. -/
def lc_printblock (s : State) (blk : Nat) : Except Fault Output := do
  let b ← load s blk
  pure (.block blk b.size b.file b.line b.function)

/-- The loop of `lc_printblocks` (lines 297-300) from `alloc` on: what it
    writes, with `fuel` steps for the unbounded loop of the source. -/
def print_loop (s : State) : Nat → Nat → Except Fault (List Output)
  | 0, alloc => if alloc = 0 then .ok [] else .error .out_of_fuel
  | fuel + 1, alloc =>
    if alloc = 0 then .ok []
    else do
      let r ← lc_printblock s alloc
      let nxt ← lc_nextblock s alloc
      let rest ← print_loop s fuel nxt
      pure (r :: rest)

/-- The function `lc_printblocks` (lines 292-303): the new state and what
    was written. -/
def lc_printblocks (s : State) (fuel : Nat) : Except Fault (State × List Output) := do
  let s ← LC_BEGINCRIT s
  let alloc := s.head_blk
  let out ← print_loop s fuel alloc
  let s := LC_ENDCRIT s
  pure (s, out)

/-- The function `lc_deinit` (lines 111-118): the new state and what was
    written.  `pthread_mutex_destroy` ends the life of the mutex and has no
    effect that the state records. -/
def lc_deinit (s : State) (fuel : Nat) : Except Fault (State × List Output) :=
  if s.blk_count ≠ 0 then do
    let head := Output.summary s.blk_count
    let (s, out) ← lc_printblocks s fuel
    pure (s, head :: out)
  else
    pure (s, [])

/-- The `prev` link stored in the header at `x`, when a header is stored
    there. -/
def prev_at (s : State) (x : Nat) : Option Nat := (s.heap x).map (fun b => b.prev)

/-- The `next` link stored in the header at `x`, when a header is stored
    there. -/
def next_at (s : State) (x : Nat) : Option Nat := (s.heap x).map (fun b => b.next)

/-- The registry after the three example allocations `A`, `B` and `C`. -/
def three_blocks : State := final_state [alloc_A, alloc_B, alloc_C]

/-- Whether a call is `lc_domalloc` or `lc_docalloc`. -/
def is_alloc : Call → Bool
  | .domalloc _ _ _ _ _ _ => true
  | .docalloc _ _ _ _ _ _ => true
  | _ => false

/-- The address `malloc` answered to an allocating call: the header of the
    block the call returns. -/
def alloc_addr : Call → Nat
  | .domalloc a _ _ _ _ _ => a
  | .docalloc a _ _ _ _ _ => a
  | _ => 0

/-- The size an allocating call asks for. -/
def alloc_size : Call → Nat
  | .domalloc _ _ size _ _ _ => size
  | .docalloc _ _ size _ _ _ => size
  | _ => 0

/-- The headers `l` are linked by `next` in this order, the last one having
    `next == t`. -/
def next_chain (s : State) (t : Nat) : List Nat → Prop
  | [] => True
  | a :: rest => (∃ b, s.heap a = some b ∧ b.next = rest.headD t) ∧ next_chain s t rest

/-- The registry after the example allocation `A` alone. -/
def one_block : State := final_state [alloc_A]

/-- One tracked call: the new state and the pointer the call returns (null
    for `lc_dofree`, which returns nothing). -/
def call (s : State) : Call → Except Fault (State × Nat)
  | .domalloc a g size function file line => lc_domalloc s a g size function file line
  | .docalloc a g size function file line => lc_docalloc s a g size function file line
  | .dorealloc ptr na size function file line => lc_dorealloc s ptr na size function file line
  | .dofree ptr => (lc_dofree s ptr).map (fun s1 => (s1, 0))

/-- A client program: the final state and the pointers the calls returned,
    in order. -/
def run_ptrs (s : State) : List Call → Except Fault (State × List Nat)
  | [] => .ok (s, [])
  | c :: cs => do
    let r ← call s c
    let rs ← run_ptrs r.1 cs
    pure (rs.1, r.2 :: rs.2)

/-- The registry holds exactly the headers `l`, in this order: the mutex is
    free, `blk_count` is their number, `head_blk` and `last_blk` are the
    first and the last of them (null when there is none), they are linked by
    `next` up to a final null, and they are distinct non-null addresses. -/
def registry_of (s : State) (l : List Nat) : Prop :=
  s.mtx = false ∧ s.blk_count = l.length ∧ s.head_blk = l.headD 0 ∧
  s.last_blk = l.getLastD 0 ∧ next_chain s 0 l ∧ (∀ x ∈ l, x ≠ 0) ∧ l.Nodup

/-! ## Storage lemmas -/

/-- A sequence of two steps that returns `r`: the first step returned some
    `v`, and the second step, run on `v`, returned `r`. -/
theorem bind_ok {α β : Type} {f : α → Except Fault β} {r : β} :
    ∀ {x : Except Fault α}, Bind.bind x f = Except.ok r →
      ∃ v, x = Except.ok v ∧ f v = Except.ok r
  | Except.ok v, hv => ⟨v, rfl, hv⟩
  | Except.error _, hv => nomatch hv

theorem modify_ok {s s1 : State} {a : Nat} {f : lc_block → lc_block}
    (h : modify s a f = .ok s1) :
    a ≠ 0 ∧ ∃ b, s.heap a = some b ∧ s1 = put s a (f b) := by
  unfold modify load at h
  by_cases ha : a = 0
  · simp [ha] at h
  · cases hb : s.heap a with
    | none => simp [ha, hb] at h
    | some b =>
      simp [ha, hb] at h
      exact ⟨ha, b, rfl, h.symm⟩

theorem set_size_size_at {s s1 : State} {a v : Nat} (h : set_size s a v = .ok s1) :
    size_at s1 a = some v := by
  obtain ⟨_, b, _, rfl⟩ := modify_ok h
  simp [size_at, put]

theorem set_prev_size_at {s s1 : State} {a v : Nat} (h : set_prev s a v = .ok s1) (x : Nat) :
    size_at s1 x = size_at s x := by
  obtain ⟨_, b, hb, rfl⟩ := modify_ok h
  by_cases hx : x = a
  · simp [size_at, put, hx, hb]
  · simp [size_at, put, hx]

theorem set_next_size_at {s s1 : State} {a v : Nat} (h : set_next s a v = .ok s1) (x : Nat) :
    size_at s1 x = size_at s x := by
  obtain ⟨_, b, hb, rfl⟩ := modify_ok h
  by_cases hx : x = a
  · simp [size_at, put, hx, hb]
  · simp [size_at, put, hx]

theorem cond_set_prev_size_at {s s1 : State} {c : Prop} [Decidable c] {a v : Nat}
    (h : (if c then set_prev s a v else pure s) = .ok s1) (x : Nat) :
    size_at s1 x = size_at s x := by
  split at h
  · exact set_prev_size_at h x
  · cases h; rfl

theorem cond_set_next_size_at {s s1 : State} {c : Prop} [Decidable c] {a v : Nat}
    (h : (if c then set_next s a v else pure s) = .ok s1) (x : Nat) :
    size_at s1 x = size_at s x := by
  split at h
  · exact set_next_size_at h x
  · cases h; rfl

/-- Freeing a block whose `prev` and `next` are both null stops at
    `blk->next->prev = NULL` (line 247). -/
theorem lc_dofree_alone {s : State} (p : Nat) {b : lc_block} (hm : s.mtx = false)
    (hp : LC_BLKOF p ≠ 0) (hb : s.heap (LC_BLKOF p) = some b)
    (hmag : b.magic = LC_MAGICNUMBER) (hprev : b.prev = 0) (hnext : b.next = 0) :
    lc_dofree s p = .error .null_deref := by
  simp [lc_dofree, lc_checkmagic, load, hp, hb, hmag, hprev, hnext, LC_BEGINCRIT, hm,
    set_prev, modify, bind, Except.bind, pure, Except.pure]

/-- Reallocating the tail to another address stops at
    `last_blk = last_blk->prev` (line 214), which reads the released storage. -/
theorem lc_dorealloc_tail_moves {s : State} (ptr : Nat) {na size function file line : Nat}
    {b : lc_block} (hm : s.mtx = false) (hp : LC_BLKOF ptr ≠ 0)
    (hb : s.heap (LC_BLKOF ptr) = some b) (hmag : b.magic = LC_MAGICNUMBER)
    (hl : s.last_blk = LC_BLKOF ptr) (hna : na ≠ 0) (hne : na ≠ LC_BLKOF ptr) :
    lc_dorealloc s ptr na size function file line = .error (.bad_access (LC_BLKOF ptr)) := by
  by_cases hr : lc_request size < LC_BLOCKSZ <;> by_cases hh : LC_BLKOF ptr = s.head_blk
  · simp [lc_dorealloc, lc_checkmagic, load, hp, hb, hmag, LC_BEGINCRIT, hm, realloc, hna, hne,
      bind, Except.bind, pure, Except.pure, ← hh, hl, Ne.symm hne, hr]
  · simp [lc_dorealloc, lc_checkmagic, load, hp, hb, hmag, LC_BEGINCRIT, hm, realloc, hna, hne,
      bind, Except.bind, pure, Except.pure, hh, hl, Ne.symm hne, hr]
  · simp [lc_dorealloc, lc_checkmagic, load, hp, hb, hmag, LC_BEGINCRIT, hm, realloc, hna, hne,
      bind, Except.bind, pure, Except.pure, ← hh, hl, Ne.symm hne, hr]
  · simp [lc_dorealloc, lc_checkmagic, load, hp, hb, hmag, LC_BEGINCRIT, hm, realloc, hna, hne,
      bind, Except.bind, pure, Except.pure, hh, hl, Ne.symm hne, hr]

/-! ## Faults, and the calls that succeed -/

theorem load_error {s : State} {a : Nat} {e : Fault} (h : load s a = .error e) :
    e = .null_deref ∨ e = .bad_access a := by
  unfold load at h
  split at h
  · cases h; exact Or.inl rfl
  · split at h
    · cases h
    · cases h; exact Or.inr rfl

theorem modify_error {s : State} {a : Nat} {f : lc_block → lc_block} {e : Fault}
    (h : modify s a f = .error e) : e = .null_deref ∨ e = .bad_access a := by
  unfold modify at h
  split at h
  · cases h
  · rename_i e1 he
    cases h
    exact load_error he

theorem ok_bind {α β : Type} (a : α) (f : α → Except Fault β) :
    ((Except.ok a : Except Fault α) >>= f) = f a := rfl

theorem bind_ne {α β : Type} {x : Except Fault α} {f : α → Except Fault β} {e : Fault}
    (hx : x ≠ .error e) (hf : ∀ a, f a ≠ .error e) : (x >>= f) ≠ .error e := by
  cases x with
  | error e1 =>
    intro h
    apply hx
    cases h
    rfl
  | ok a => exact hf a

theorem load_not_die (s : State) (a : Nat) (s1 : State) :
    load s a ≠ .error (.die_free s1) ∧ load s a ≠ .error (.die_realloc s1) := by
  constructor <;> intro h <;> rcases load_error h with h | h <;> cases h

theorem modify_not_die (s : State) (a : Nat) (f : lc_block → lc_block) (s1 : State) :
    modify s a f ≠ .error (.die_free s1) ∧ modify s a f ≠ .error (.die_realloc s1) := by
  constructor <;> intro h <;> rcases modify_error h with h | h <;> cases h

theorem LC_BEGINCRIT_not_die (s s1 : State) :
    LC_BEGINCRIT s ≠ .error (.die_free s1) ∧ LC_BEGINCRIT s ≠ .error (.die_realloc s1) := by
  unfold LC_BEGINCRIT
  constructor <;> split <;> intro h <;> cases h

theorem pure_not_error {α : Type} (a : α) (e : Fault) :
    (pure a : Except Fault α) ≠ .error e := by
  intro h; cases h

/-- The header `fill_block` leaves in storage that held `g`. -/
theorem fill_block_ok (s : State) (blk : Nat) (g : lc_block) (size function file line : Nat)
    (hb : blk ≠ 0) (hg : s.heap blk = some g) :
    fill_block s blk size function file line =
      .ok (put s blk { g with size := size, file := file, line := line, function := function,
                              magic := LC_MAGICNUMBER, next := 0 }) := by
  simp [fill_block, modify, load, hb, hg]

/-- The function `add_block` on the empty registry. -/
theorem add_block_empty (s : State) (blk : Nat) (h0 : s.head_blk = 0) :
    add_block s blk =
      .ok { s with blk_count := (s.blk_count + 1) % SIZE_MOD, head_blk := blk,
                   last_blk := blk } := by
  simp [add_block, h0, bind, Except.bind, pure, Except.pure]

/-- The function `add_block` on a registry whose tail `t` is live, for a
    header `g` stored at another address. -/
theorem add_block_append (s : State) (blk : Nat) (t g : lc_block) (h0 : s.head_blk ≠ 0)
    (hl : s.last_blk ≠ 0) (ht : s.heap s.last_blk = some t) (hb : blk ≠ 0)
    (hg : s.heap blk = some g) (hne : blk ≠ s.last_blk) :
    add_block s blk =
      .ok { s with
        blk_count := (s.blk_count + 1) % SIZE_MOD, last_blk := blk,
        heap := fun x => if x = blk then some { g with prev := s.last_blk }
                         else if x = s.last_blk then some { t with next := blk }
                         else s.heap x } := by
  simp [add_block, h0, hl, ht, hb, hg, hne, set_next, set_prev, modify, load, put,
    bind, Except.bind, pure, Except.pure]

/-- A request that does not wrap asks for at least a header. -/
theorem lc_request_ge {n : Nat} (h : LC_BLOCKSZ + n < SIZE_MOD) : LC_BLOCKSZ ≤ lc_request n := by
  unfold lc_request
  rw [Nat.mod_eq_of_lt h]
  exact Nat.le_add_right _ _

theorem malloc_fits (s : State) {req a : Nat} (g : lc_block) (ha : a ≠ 0)
    (h : LC_BLOCKSZ ≤ req) : malloc s req a g = put s a g := by
  simp [malloc, ha, h]

theorem malloc_small (s : State) {req a : Nat} (g : lc_block) (ha : a ≠ 0)
    (h : req < LC_BLOCKSZ) :
    malloc s req a g = { s with heap := fun x => if x = a then none else s.heap x } := by
  simp [malloc, ha, Nat.not_le.mpr h]

/-- The call `lc_domalloc` on the empty registry, `malloc` answering `a`. -/
theorem lc_domalloc_empty (s : State) (a : Nat) (g : lc_block) (n function file line : Nat)
    (hm : s.mtx = false) (ha : a ≠ 0) (h0 : s.head_blk = 0)
    (hreq : LC_BLOCKSZ ≤ lc_request n) :
    lc_domalloc s a g n function file line =
      .ok ({ s with
              blk_count := (s.blk_count + 1) % SIZE_MOD, head_blk := a, last_blk := a,
              heap := fun x =>
                if x = a then
                  some { g with size := n, file := file, line := line, function := function,
                                magic := LC_MAGICNUMBER, next := 0 }
                else s.heap x },
           LC_PTROF a) := by
  have e : LC_BEGINCRIT s = .ok { s with mtx := true } := by simp [LC_BEGINCRIT, hm]
  unfold lc_domalloc
  rw [e, ok_bind]
  simp only [ha, if_false]
  rw [malloc_fits _ g ha hreq,
    fill_block_ok _ a g n function file line ha (by simp [put]), ok_bind,
    add_block_empty _ a (by simp [put, h0]), ok_bind]
  simp only [pure, Except.pure, LC_ENDCRIT, put, hm]
  congr 2
  simp only [State.mk.injEq, and_true]
  funext x
  by_cases hx : x = a <;> simp [hx]

/-- The call `lc_domalloc` on a registry whose tail `t` is live, `malloc`
    answering an address `a` other than the tail. -/
theorem lc_domalloc_append (s : State) (a : Nat) (g t : lc_block)
    (n function file line : Nat) (hm : s.mtx = false) (ha : a ≠ 0) (h0 : s.head_blk ≠ 0)
    (hl : s.last_blk ≠ 0) (ht : s.heap s.last_blk = some t) (hne : a ≠ s.last_blk)
    (hreq : LC_BLOCKSZ ≤ lc_request n) :
    lc_domalloc s a g n function file line =
      .ok ({ s with
              blk_count := (s.blk_count + 1) % SIZE_MOD, last_blk := a,
              heap := fun x =>
                if x = a then
                  some { g with size := n, file := file, line := line, function := function,
                                magic := LC_MAGICNUMBER, next := 0, prev := s.last_blk }
                else if x = s.last_blk then some { t with next := a }
                else s.heap x },
           LC_PTROF a) := by
  have e : LC_BEGINCRIT s = .ok { s with mtx := true } := by simp [LC_BEGINCRIT, hm]
  unfold lc_domalloc
  rw [e, ok_bind]
  simp only [ha, if_false]
  rw [malloc_fits _ g ha hreq,
    fill_block_ok _ a g n function file line ha (by simp [put]), ok_bind,
    add_block_append _ a t
      { g with size := n, file := file, line := line, function := function,
               magic := LC_MAGICNUMBER, next := 0 }
      (by simp [put, h0]) (by simp [put, hl])
      (by simp [put, ht, Ne.symm hne]) ha (by simp [put])
      (by simp [put, hne]), ok_bind]
  simp only [pure, Except.pure, LC_ENDCRIT, put, hm]
  congr 2
  simp only [State.mk.injEq, and_true]
  funext x
  by_cases hx : x = a <;> simp [hx]

/-- With a request that does not wrap, `lc_docalloc` differs from
    `lc_domalloc` in the `memset` only, which stays inside the block. -/
theorem lc_docalloc_eq (s : State) (a : Nat) (g : lc_block) (size function file line : Nat)
    (h : LC_BLOCKSZ + size < SIZE_MOD) :
    lc_docalloc s a g size function file line = lc_domalloc s a g size function file line := by
  have hm : ∀ s1 : State, memset s1 a (lc_request size) size = .ok s1 := by
    intro s1
    have e : lc_request size = LC_BLOCKSZ + size := Nat.mod_eq_of_lt h
    simp [memset, e]
  unfold lc_docalloc lc_domalloc
  simp only [hm, ok_bind]

/-- When the request has wrapped below the size of a header, the block
    holds no header and `fill_block` faults at its first write. -/
theorem lc_domalloc_overrun (s : State) (a : Nat) (g : lc_block)
    (n function file line : Nat) (hm : s.mtx = false) (ha : a ≠ 0)
    (h : lc_request n < LC_BLOCKSZ) :
    lc_domalloc s a g n function file line = .error (.bad_access a) ∧
    lc_docalloc s a g n function file line = .error (.bad_access a) := by
  have e : LC_BEGINCRIT s = .ok { s with mtx := true } := by simp [LC_BEGINCRIT, hm]
  constructor
  · unfold lc_domalloc
    rw [e, ok_bind]
    simp only [ha, if_false]
    rw [malloc_small _ g ha h]
    simp [fill_block, modify, load, ha, bind, Except.bind]
  · unfold lc_docalloc
    rw [e, ok_bind]
    simp only [ha, if_false]
    rw [malloc_small _ g ha h]
    simp [fill_block, modify, load, ha, bind, Except.bind]

/-- The first allocation: from the initial state, with `malloc` answering
    4096 with a block that holds a header, `lc_domalloc` returns and leaves
    one header that is head and tail. -/
theorem lc_domalloc_first (g : lc_block) (n function file line : Nat)
    (hreq : LC_BLOCKSZ ≤ lc_request n) :
    ∃ s, lc_domalloc lc_initial 4096 g n function file line = .ok (s, LC_PTROF 4096) ∧
      s.mtx = false ∧ s.head_blk = 4096 ∧ s.last_blk = 4096 ∧ s.blk_count = 1 ∧
      s.heap 4096 = some { g with size := n, file := file, line := line, function := function,
                                  magic := LC_MAGICNUMBER, next := 0 } :=
  ⟨_, lc_domalloc_empty lc_initial 4096 g n function file line rfl (by decide) rfl hreq,
    rfl, rfl, rfl, rfl, rfl⟩

theorem load_ok {s : State} {a : Nat} {b : lc_block} (h : load s a = .ok b) :
    a ≠ 0 ∧ s.heap a = some b := by
  unfold load at h
  split at h
  · cases h
  · rename_i ha
    split at h
    · rename_i b1 hb
      cases h
      exact ⟨ha, hb⟩
    · cases h

/-- In a well-formed registry that is not empty, `last_blk` is the address
    of a live header. -/
theorem lc_wellformed_tail (s : State) (hwf : lc_wellformed s = true) (h0 : s.head_blk ≠ 0) :
    s.last_blk ≠ 0 ∧ ∃ t, s.heap s.last_blk = some t := by
  unfold lc_wellformed at hwf
  split at hwf
  · rename_i fwd bwd hf hb
    simp only [Bool.and_eq_true, decide_eq_true_eq] at hwf
    obtain ⟨⟨⟨⟨hlen, hrev⟩, hlast⟩, hhead⟩, -⟩ := hwf
    simp only [h0, if_false] at hhead
    have hne : fwd ≠ [] := by
      intro h
      simp [h] at hhead
    have hl0 : s.last_blk ≠ 0 := by
      intro h
      simp [h] at hlast
      exact hne hlast
    refine ⟨hl0, ?_⟩
    have hc : s.blk_count ≠ 0 := by
      rw [← hlen]
      simpa [List.length_eq_zero] using hne
    obtain ⟨k, hk⟩ := Nat.exists_eq_succ_of_ne_zero hc
    rw [hk] at hb
    simp only [walk_prev, hl0, if_false] at hb
    obtain ⟨b, hb1, -⟩ := bind_ok hb
    exact ⟨b, (load_ok hb1).2⟩
  · cases hwf

/-! ## The report and the traversal -/

theorem load_congr {s s1 : State} (hh : s1.heap = s.heap) (a : Nat) : load s1 a = load s a := by
  unfold load
  rw [hh]

/-- The loop of `lc_printblocks` writes one record for each header the
    traversal visits, in the same order, with the fields of that header. -/
theorem print_loop_of_traverse (s s1 : State) (hh : s1.heap = s.heap) :
    ∀ (fuel a : Nat) (L : List Nat), lc_traverse s fuel a = .ok L →
      ∃ recs, print_loop s1 fuel a = .ok recs ∧
        List.Forall₂ (fun x r => ∃ b, s.heap x = some b ∧
          r = Output.block x b.size b.file b.line b.function) L recs := by
  intro fuel
  induction fuel with
  | zero =>
    intro a L h
    unfold lc_traverse at h
    split at h
    · rename_i ha
      cases h
      exact ⟨[], by simp [print_loop, ha], List.Forall₂.nil⟩
    · cases h
  | succ k ih =>
    intro a L h
    unfold lc_traverse at h
    split at h
    · rename_i ha
      cases h
      exact ⟨[], by simp [print_loop, ha], List.Forall₂.nil⟩
    · rename_i ha
      obtain ⟨nxt, hn, h⟩ := bind_ok h
      obtain ⟨rest, hr, h⟩ := bind_ok h
      cases h
      obtain ⟨recs, hp, hf⟩ := ih nxt rest hr
      unfold lc_nextblock at hn
      obtain ⟨b, hb, hn⟩ := bind_ok hn
      cases hn
      have hb1 : load s1 a = .ok b := by rw [load_congr hh]; exact hb
      refine ⟨Output.block a b.size b.file b.line b.function :: recs, ?_,
        List.Forall₂.cons ⟨b, (load_ok hb).2, rfl⟩ hf⟩
      unfold print_loop
      simp only [ha, if_false, lc_printblock, lc_nextblock, hb1, ok_bind]
      simp only [pure, Except.pure, ok_bind]
      rw [hp]
      rfl

theorem next_chain_live {s : State} {t : Nat} :
    ∀ {L : List Nat}, next_chain s t L → ∀ x ∈ L, ∃ b, s.heap x = some b := by
  intro L
  induction L with
  | nil => intro _ x hx; cases hx
  | cons a rest ih =>
    intro h x hx
    obtain ⟨⟨b, hb, -⟩, hrest⟩ := h
    rcases List.mem_cons.mp hx with rfl | hx
    · exact ⟨b, hb⟩
    · exact ih hrest x hx

/-- Headers linked by `next` up to a final null are what the traversal
    yields, within as many steps as there are headers. -/
theorem lc_traverse_of_next_chain (s : State) :
    ∀ L : List Nat, next_chain s 0 L → (∀ x ∈ L, x ≠ 0) →
      lc_traverse s L.length (L.headD 0) = .ok L := by
  intro L
  induction L with
  | nil => intro _ _; rfl
  | cons a rest ih =>
    intro h hnz
    obtain ⟨⟨b, hb, hnext⟩, hrest⟩ := h
    have ha : a ≠ 0 := hnz a (List.mem_cons_self a rest)
    have hl : load s a = .ok b := by simp [load, ha, hb]
    have hn : lc_nextblock s a = .ok (rest.headD 0) := by
      unfold lc_nextblock
      rw [hl, ok_bind, hnext]
      have e : (if rest.headD 0 ≠ 0 then rest.headD 0 else 0) = rest.headD 0 := by
        split
        · rfl
        · rename_i h0
          exact (not_not.mp h0).symm
      rw [e]
      rfl
    show lc_traverse s (rest.length + 1) a = .ok (a :: rest)
    unfold lc_traverse
    simp only [ha, if_false]
    rw [hn, ok_bind, ih hrest (fun x hx => hnz x (List.mem_cons_of_mem a hx)), ok_bind]
    rfl

/-- Appending a header `a` to a chain: the last header now has `next == a`,
    the new header has `next == NULL`, every other header is as before. -/
theorem next_chain_append (s : State) {s1 : State} {a : Nat} (ba : lc_block)
    (ha : s1.heap a = some ba) (hba : ba.next = 0) :
    ∀ L : List Nat, L ≠ [] → L.Nodup → a ∉ L → next_chain s 0 L →
      (∃ t1, s1.heap (L.getLastD 0) = some t1 ∧ t1.next = a) →
      (∀ x, x ≠ a → x ≠ L.getLastD 0 → s1.heap x = s.heap x) →
      next_chain s1 0 (L ++ [a]) := by
  intro L
  induction L with
  | nil => intro h; exact absurd rfl h
  | cons x rest ih =>
    intro _ hnd hna hch hlast hsame
    obtain ⟨⟨b, hb, hnext⟩, hrest⟩ := hch
    cases rest with
    | nil =>
      obtain ⟨t1, ht1, ht1n⟩ := hlast
      exact ⟨⟨t1, ht1, ht1n⟩, ⟨ba, ha, hba⟩, trivial⟩
    | cons y rest2 =>
      have hxa : x ≠ a := fun h => hna (h ▸ List.mem_cons_self x _)
      have hlast_eq : (x :: y :: rest2).getLastD 0 = (y :: rest2).getLastD 0 := by
        simp [List.getLastD]
      have hmem : (y :: rest2).getLastD 0 ∈ y :: rest2 := by
        simp only [List.getLastD_cons]
        exact List.getLastD_mem_cons _ _
      have hxl : x ≠ (x :: y :: rest2).getLastD 0 := by
        rw [hlast_eq]
        intro h
        exact (List.nodup_cons.mp hnd).1 (h ▸ hmem)
      refine ⟨⟨b, ?_, hnext⟩, ?_⟩
      · rw [hsame x hxa hxl]; exact hb
      · refine ih (by simp) (List.nodup_cons.mp hnd).2
          (fun h => hna (List.mem_cons_of_mem x h)) hrest ?_ ?_
        · rw [← hlast_eq]; exact hlast
        · intro z hz1 hz2
          exact hsame z hz1 (by rw [hlast_eq]; exact hz2)

/-- An allocation on a registry that holds `L`, answered with a non-null
    address outside `L`, returns and leaves a registry that holds `L` and
    then the new header. -/
theorem registry_of_domalloc (s : State) (L : List Nat) (a : Nat) (g : lc_block)
    (n function file line : Nat) (hr : registry_of s L) (ha : a ≠ 0) (hna : a ∉ L)
    (hlen : L.length + 1 < SIZE_MOD) (hreq : LC_BLOCKSZ ≤ lc_request n) :
    ∃ s1, lc_domalloc s a g n function file line = .ok (s1, LC_PTROF a) ∧
      registry_of s1 (L ++ [a]) := by
  obtain ⟨hm, hc, hh, hl, hch, hnz, hnd⟩ := hr
  cases L with
  | nil =>
    have h0 : s.head_blk = 0 := hh
    refine ⟨_, lc_domalloc_empty s a g n function file line hm ha h0 hreq, ?_⟩
    refine ⟨hm, ?_, rfl, rfl, ⟨⟨_, if_pos rfl, rfl⟩, trivial⟩, ?_, by simp⟩
    · show (s.blk_count + 1) % SIZE_MOD = 1
      rw [hc]
      exact Nat.mod_eq_of_lt hlen
    · intro x hx
      simp at hx
      rw [hx]
      exact ha
  | cons x rest =>
    have h0 : s.head_blk ≠ 0 := by
      rw [hh]
      exact hnz x (List.mem_cons_self x rest)
    have hlm : s.last_blk ∈ x :: rest := by
      rw [hl]
      simp only [List.getLastD_cons]
      exact List.getLastD_mem_cons _ _
    have hl0 : s.last_blk ≠ 0 := hnz _ hlm
    obtain ⟨t, ht⟩ := next_chain_live hch _ hlm
    have hne : a ≠ s.last_blk := fun h => hna (h ▸ hlm)
    refine ⟨_, lc_domalloc_append s a g t n function file line hm ha h0 hl0 ht hne hreq, ?_⟩
    refine ⟨hm, ?_, ?_, ?_, ?_, ?_, ?_⟩
    · show (s.blk_count + 1) % SIZE_MOD = ((x :: rest) ++ [a]).length
      rw [hc, Nat.mod_eq_of_lt hlen]
      simp
    · show s.head_blk = ((x :: rest) ++ [a]).headD 0
      rw [hh]
      rfl
    · show a = ((x :: rest) ++ [a]).getLastD 0
      rw [List.getLastD_concat]
    · refine next_chain_append s
          { g with size := n, file := file, line := line, function := function,
                   magic := LC_MAGICNUMBER, next := 0, prev := s.last_blk }
        (by simp) rfl (x :: rest) (by simp) hnd hna hch ?_ ?_
      · rw [← hl]
        exact ⟨{ t with next := a }, by simp [Ne.symm hne], rfl⟩
      · intro z hz1 hz2
        rw [← hl] at hz2
        simp [hz1, hz2]
    · intro z hz
      rcases List.mem_append.mp hz with hz | hz
      · exact hnz z hz
      · simp at hz
        rw [hz]
        exact ha
    · rw [List.nodup_append]
      refine ⟨hnd, by simp, ?_⟩
      intro z hz1 hz2
      simp at hz2
      exact hna (hz2 ▸ hz1)

theorem registry_of_initial : registry_of lc_initial [] :=
  ⟨rfl, rfl, rfl, rfl, trivial, by simp, List.nodup_nil⟩

/-- Allocating calls whose requests do not wrap, answered with distinct
    non-null addresses outside the registry, all return, and leave the
    registry extended by their headers in the order of the calls. -/
theorem run_ptrs_allocations :
    ∀ (cs : List Call) (s : State) (L : List Nat), registry_of s L →
      (∀ c ∈ cs, is_alloc c = true) → (∀ c ∈ cs, alloc_addr c ≠ 0) →
      (∀ c ∈ cs, LC_BLOCKSZ + alloc_size c < SIZE_MOD) →
      (L ++ cs.map alloc_addr).Nodup → L.length + cs.length < SIZE_MOD →
      ∃ s1, run_ptrs s cs = .ok (s1, cs.map (fun c => LC_PTROF (alloc_addr c))) ∧
        registry_of s1 (L ++ cs.map alloc_addr) := by
  intro cs
  induction cs with
  | nil =>
    intro s L hr _ _ _ _ _
    exact ⟨s, rfl, by simpa using hr⟩
  | cons c cs ih =>
    intro s L hr hall hnz hsz hnd hlen
    have hc1 : is_alloc c = true := hall c (List.mem_cons_self c cs)
    have hs1 : LC_BLOCKSZ + alloc_size c < SIZE_MOD := hsz c (List.mem_cons_self c cs)
    have ha : alloc_addr c ≠ 0 := hnz c (List.mem_cons_self c cs)
    have hna : alloc_addr c ∉ L := by
      intro h
      rw [List.map_cons, List.nodup_append] at hnd
      exact hnd.2.2 h (List.mem_cons_self _ _)
    have hlen1 : L.length + 1 < SIZE_MOD := by
      simp only [List.length_cons] at hlen
      omega
    have key : ∃ s1, call s c = .ok (s1, LC_PTROF (alloc_addr c)) ∧
        registry_of s1 (L ++ [alloc_addr c]) := by
      cases c with
      | domalloc a g size function file line =>
        exact registry_of_domalloc s L a g size function file line hr ha hna hlen1
          (lc_request_ge hs1)
      | docalloc a g size function file line =>
        show ∃ s1, lc_docalloc s a g size function file line = .ok (s1, LC_PTROF a) ∧
          registry_of s1 (L ++ [a])
        rw [lc_docalloc_eq s a g size function file line hs1]
        exact registry_of_domalloc s L a g size function file line hr ha hna hlen1
          (lc_request_ge hs1)
      | dorealloc ptr na size function file line => cases hc1
      | dofree ptr => cases hc1
    obtain ⟨s1, hcall, hr1⟩ := key
    obtain ⟨s2, hrun, hr2⟩ := ih s1 (L ++ [alloc_addr c]) hr1
      (fun d hd => hall d (List.mem_cons_of_mem c hd))
      (fun d hd => hnz d (List.mem_cons_of_mem c hd))
      (fun d hd => hsz d (List.mem_cons_of_mem c hd))
      (by simpa using hnd)
      (by simp only [List.length_append, List.length_cons, List.length_nil] at hlen ⊢; omega)
    refine ⟨s2, ?_, by simpa using hr2⟩
    show (call s c >>= fun r => run_ptrs r.1 cs >>= fun rs => pure (rs.1, r.2 :: rs.2)) = _
    rw [hcall, ok_bind]
    show (run_ptrs s1 cs >>= fun rs => pure (rs.1, LC_PTROF (alloc_addr c) :: rs.2)) = _
    rw [hrun, ok_bind]
    rfl

/-- What a client sees of a registry that holds one header, at 4096. -/
theorem observe_one_header {s : State} {b : lc_block} (fuel : Nat) (hh : s.head_blk = 4096)
    (hl : s.last_blk = 4096) (hc : s.blk_count = 1) (hb : s.heap 4096 = some b)
    (hn : b.next = 0) : observe (fuel + 1) s = (1, 4096, 4096, .ok [4096]) := by
  have e : lc_traverse s (fuel + 1) 4096 = .ok [4096] := by
    unfold lc_traverse
    simp only [Nat.succ_ne_zero, if_false]
    have hnx : lc_nextblock s 4096 = .ok 0 := by
      simp [lc_nextblock, load, hb, hn, bind, Except.bind, pure, Except.pure]
    rw [hnx, ok_bind]
    cases fuel <;> rfl
  simp only [observe, lc_countallocations, lc_getallocations, hh, hl, hc, e]

/-! ## The registry after `lc_dofree` -/

/-- C1: allocate `A`, allocate `B`, free `B`, allocate `C`, then traverse.
    After the free the traversal is `[A]` but `last_blk` still holds the
    address of the released `B`; the allocation of `C` then writes
    `last_blk->next` into that released storage, so the run does not reach a
    state whose traversal is `[A, C]`. -/
theorem lc_traverse_after_free_of_tail :
    (run lc_initial [alloc_A, alloc_B, .dofree (LC_PTROF 8192)]).map (observe 4)
      = .ok (1, 4096, 8192, .ok [4096]) ∧
    (run lc_initial [alloc_A, alloc_B, .dofree (LC_PTROF 8192), alloc_C]).map (observe 4)
      = .error (.bad_access 8192) :=
  ⟨rfl, rfl⟩

/-- C2: the registry is well-formed initially and after the allocations `A`
    and `B`, and `lc_dofree` of `B` does not preserve that: the traversal is
    `[A]` while `last_blk` is still the address of `B`, whose storage has been
    released. -/
theorem lc_dofree_breaks_wellformed :
    lc_wellformed lc_initial = true ∧
    run lc_initial [alloc_A, alloc_B] = .ok two_blocks ∧
    lc_wellformed two_blocks = true ∧
    (lc_dofree two_blocks (LC_PTROF 8192)).map (fun s => (lc_wellformed s, observe 4 s))
      = .ok (false, 1, 4096, 8192, .ok [4096]) ∧
    (lc_dofree two_blocks (LC_PTROF 8192)).map (fun s => load s s.last_blk)
      = .ok (.error (.bad_access 8192)) :=
  ⟨rfl, rfl, rfl, rfl, rfl⟩

/-- C3: allocate `A`, allocate `B`, free `A`, free `B`.  After the first free
    the count is 1; the second free removes the only block left, reaches
    `blk->next->prev = NULL` with `blk->next` null, and no count of 0 is ever
    reported. -/
theorem lc_countallocations_after_frees :
    (run lc_initial [alloc_A, alloc_B, .dofree (LC_PTROF 4096)]).map lc_countallocations
      = .ok 1 ∧
    (run lc_initial [alloc_A, alloc_B, .dofree (LC_PTROF 4096),
        .dofree (LC_PTROF 8192)]).map lc_countallocations
      = .error .null_deref :=
  ⟨rfl, rfl⟩

/-- C4: `lc_domalloc` from the empty registry (zero-filled storage at 4096)
    followed by `lc_dofree` of the returned pointer does not complete, for
    any size and call site.  When the request does not wrap below the size of
    a header, the allocation returns the pointer behind a header that is head
    and tail, and `lc_dofree` then dereferences the null `blk->next` instead
    of returning; when it does wrap, the allocation itself faults at the
    first write to the header. -/
theorem lc_dofree_sole_block (n function file line : Nat) :
    (lc_domalloc lc_initial 4096 zeroed n function file line).map (observe_call 2)
      = (if lc_request n < LC_BLOCKSZ then .error (.bad_access 4096)
         else .ok (LC_PTROF 4096, 1, 4096, 4096, .ok [4096])) ∧
    ((lc_domalloc lc_initial 4096 zeroed n function file line >>=
        fun r => lc_dofree r.1 r.2).map (observe 2))
      = .error (if lc_request n < LC_BLOCKSZ then .bad_access 4096 else .null_deref) := by
  by_cases hr : lc_request n < LC_BLOCKSZ
  · rw [(lc_domalloc_overrun lc_initial 4096 zeroed n function file line rfl (by decide) hr).1]
    simp only [hr, if_true]
    exact ⟨rfl, rfl⟩
  · obtain ⟨s, h, hm, hh, hl, hc, hb⟩ :=
      lc_domalloc_first zeroed n function file line (Nat.not_lt.mp hr)
    rw [h]
    simp only [hr, if_false]
    constructor
    · show Except.ok (LC_PTROF 4096, observe 2 s) = _
      rw [observe_one_header 1 hh hl hc hb rfl]
    · show (lc_dofree s (LC_PTROF 4096)).map (observe 2) = _
      rw [lc_dofree_alone (LC_PTROF 4096) hm (by decide) hb rfl rfl rfl]
      rfl

/-- C5: allocate `A` then `B`, free `A`, where the storage `malloc` returned
    for `A` held a non-zero word at the offset of `prev`.  No tracked call
    ever writes the `prev` of the first block, so `lc_dofree` takes the branch
    `blk->prev->next = blk->next` and writes through that word.  (With
    zero-filled storage for `A` the same calls leave exactly `[B]`.) -/
theorem lc_dofree_first_block_prev :
    (run lc_initial [alloc_A_dirty, alloc_B]).map (observe 4)
      = .ok (2, 4096, 8192, .ok [4096, 8192]) ∧
    (run lc_initial [alloc_A_dirty, alloc_B]).map (fun s => (s.heap 4096).map (fun b => b.prev))
      = .ok (some 57005) ∧
    (run lc_initial [alloc_A_dirty, alloc_B, .dofree (LC_PTROF 4096)]).map (observe 4)
      = .error (.bad_access 57005) ∧
    (run lc_initial [alloc_A, alloc_B, .dofree (LC_PTROF 4096)]).map (observe 4)
      = .ok (1, 8192, 8192, .ok [8192]) :=
  ⟨rfl, rfl, rfl, rfl⟩

/-! ## The registry after `lc_dorealloc` -/

/-- C6: with the blocks `A` and `B` (head `A`, tail `B`), a failing `realloc`
    makes `lc_dorealloc` return `NULL`, but the registry is not unchanged: for
    the head `A`, `head_blk` becomes null and the traversal is empty; for the
    tail `B`, `last_blk` becomes `A`. -/
theorem lc_dorealloc_failure_changes_registry :
    run lc_initial [alloc_A, alloc_B] = .ok two_blocks ∧
    observe 4 two_blocks = (2, 4096, 8192, .ok [4096, 8192]) ∧
    (lc_dorealloc two_blocks (LC_PTROF 4096) 0 100 1 2 11).map (observe_call 4)
      = .ok (0, 2, 0, 8192, .ok []) ∧
    (lc_dorealloc two_blocks (LC_PTROF 8192) 0 100 1 2 11).map (observe_call 4)
      = .ok (0, 2, 4096, 4096, .ok [4096, 8192]) :=
  ⟨rfl, rfl, rfl, rfl⟩

/-- C7: with the blocks `A` and `B`, `realloc` moves the tail `B` from 8192
    to 12288.  `lc_dorealloc` then evaluates `last_blk = last_blk->prev` with
    `last_blk` still the old address, which `realloc` has released; `last_blk`
    is never set to the new address. -/
theorem lc_dorealloc_moved_tail :
    run lc_initial [alloc_A, alloc_B] = .ok two_blocks ∧
    (lc_dorealloc two_blocks (LC_PTROF 8192) 12288 100 1 2 11).map (observe_call 4)
      = .error (.bad_access 8192) :=
  ⟨rfl, rfl⟩

/-- C8: one block, reallocated with relocation from 4096 to 8192, whatever
    the fresh storage held and whatever the sizes: the block is the tail, so
    `lc_dorealloc` reads `last_blk->prev` from the storage `realloc` has
    released, and no state with count 1 and a single entry is reached.  (For
    a first size whose request wraps below the size of a header, the
    allocation itself has already faulted at 4096.) -/
theorem lc_dorealloc_moved_sole_block (g : lc_block) (n m : Nat) :
    (run lc_initial [.domalloc 4096 g n 1 2 8]).map (observe 4)
      = (if lc_request n < LC_BLOCKSZ then .error (.bad_access 4096)
         else .ok (1, 4096, 4096, .ok [4096])) ∧
    (run lc_initial [.domalloc 4096 g n 1 2 8,
        .dorealloc (LC_PTROF 4096) 8192 m 1 2 11]).map (observe 4)
      = .error (.bad_access 4096) := by
  have e1 : run lc_initial [.domalloc 4096 g n 1 2 8] =
      ((lc_domalloc lc_initial 4096 g n 1 2 8).map Prod.fst >>= fun s => .ok s) := rfl
  have e2 : run lc_initial [.domalloc 4096 g n 1 2 8,
        .dorealloc (LC_PTROF 4096) 8192 m 1 2 11] =
      ((lc_domalloc lc_initial 4096 g n 1 2 8).map Prod.fst >>= fun s =>
        run s [.dorealloc (LC_PTROF 4096) 8192 m 1 2 11]) := rfl
  rw [e1, e2]
  by_cases hr : lc_request n < LC_BLOCKSZ
  · rw [(lc_domalloc_overrun lc_initial 4096 g n 1 2 8 rfl (by decide) hr).1]
    simp only [hr, if_true]
    exact ⟨rfl, rfl⟩
  · obtain ⟨s, h, hm, hh, hl, hc, hb⟩ := lc_domalloc_first g n 1 2 8 (Nat.not_lt.mp hr)
    rw [h]
    simp only [hr, if_false]
    constructor
    · show Except.ok (observe 4 s) = _
      rw [observe_one_header 3 hh hl hc hb rfl]
    · show (((lc_dorealloc s (LC_PTROF 4096) 8192 m 1 2 11).map Prod.fst >>= fun s =>
          run s [])).map (observe 4) = _
      rw [lc_dorealloc_tail_moves (LC_PTROF 4096) hm (by decide) hb rfl hl (by decide)
        (by decide)]
      rfl

/-- C10: with the blocks `A` and `B`, `realloc` resizes the tail `B` in
    place.  `lc_dorealloc` returns its argument, but `last_blk` has changed
    from `B` to `A`. -/
theorem lc_dorealloc_in_place_tail :
    run lc_initial [alloc_A, alloc_B] = .ok two_blocks ∧
    observe 4 two_blocks = (2, 4096, 8192, .ok [4096, 8192]) ∧
    (lc_dorealloc two_blocks (LC_PTROF 8192) 8192 100 1 2 11).map (observe_call 4)
      = .ok (LC_PTROF 8192, 2, 4096, 4096, .ok [4096, 8192]) :=
  ⟨rfl, rfl, rfl⟩

/-! ## Reallocation reports the new size -/

/-- C9: whenever `lc_dorealloc (ptr, size, ...)` returns a non-null pointer
    `q`, the header just before `q` has `size` equal to the requested size,
    whether the allocator kept the address or moved the block. -/
theorem lc_dorealloc_size (s : State) (ptr na size function file line : Nat)
    (s1 : State) (q : Nat)
    (h : lc_dorealloc s ptr na size function file line = .ok (s1, q)) (hq : q ≠ 0) :
    ∃ b, s1.heap (LC_BLKOF q) = some b ∧ b.size = size := by
  have key : size_at s1 (LC_BLKOF q) = some size := by
    unfold lc_dorealloc at h
    obtain ⟨ok, -, h⟩ := bind_ok h
    split at h
    · exact absurd h (by simp [throw, throwThe, MonadExceptOf.throw])
    obtain ⟨s2, -, h⟩ := bind_ok h
    obtain ⟨pb, -, h⟩ := bind_ok h
    obtain ⟨s3, -, h⟩ := bind_ok h
    split at h
    · cases h; exact absurd rfl hq
    obtain ⟨s4, hsz, h⟩ := bind_ok h
    split at h
    · rename_i hsame
      cases h
      rw [← hsame]
      exact set_size_size_at hsz
    obtain ⟨s5, hp, h⟩ := bind_ok h
    obtain ⟨s6, hn, h⟩ := bind_ok h
    cases h
    have e4 : LC_BLKOF (LC_PTROF na) = na := by simp [LC_BLKOF, LC_PTROF]
    rw [e4]
    show size_at s6 na = some size
    rw [cond_set_next_size_at hn, cond_set_prev_size_at hp, set_size_size_at hsz]
  simp only [size_at, Option.map_eq_some'] at key
  obtain ⟨b, hb, hs⟩ := key
  exact ⟨b, hb, hs⟩

/-- C9, at two concrete calls after the allocations `A` and `B`: `A` is
    reallocated to 100 bytes and moved to address 12288, and `A` is
    reallocated to 100 bytes in place; each call returns a non-null pointer
    and the header before it records size 100. -/
theorem lc_dorealloc_size_witness :
    run lc_initial [alloc_A, alloc_B] = .ok two_blocks ∧
    (∃ s1 q, lc_dorealloc two_blocks (LC_PTROF 4096) 12288 100 1 2 11 = .ok (s1, q) ∧
      q ≠ 0 ∧ q ≠ LC_PTROF 4096 ∧ ∃ b, s1.heap (LC_BLKOF q) = some b ∧ b.size = 100) ∧
    (∃ s1 q, lc_dorealloc two_blocks (LC_PTROF 4096) 4096 100 1 2 11 = .ok (s1, q) ∧
      q ≠ 0 ∧ q = LC_PTROF 4096 ∧ ∃ b, s1.heap (LC_BLKOF q) = some b ∧ b.size = 100) :=
  ⟨rfl,
   ⟨_, _, rfl, by decide, by decide,
    lc_dorealloc_size two_blocks (LC_PTROF 4096) 12288 100 1 2 11 _ _ rfl (by decide)⟩,
   ⟨_, _, rfl, by decide, rfl,
    lc_dorealloc_size two_blocks (LC_PTROF 4096) 4096 100 1 2 11 _ _ rfl (by decide)⟩⟩

/-! ## Free after reallocation, and both sides of the unlink -/

/-- C11: allocate `A`, `B`, `C` (a well-formed registry of three blocks),
    reallocate the middle block `B` so that it moves from 8192 to 20000, then
    free the returned pointer.  The reallocation succeeds and leaves a
    well-formed registry; the free removes one entry (count 2, traversal
    `[A, C]`), but `C->prev` still holds 20000, the address of the block just
    freed, whose storage is released. -/
theorem lc_dofree_after_dorealloc :
    run lc_initial [alloc_A, alloc_B, alloc_C] = .ok three_blocks ∧
    lc_wellformed three_blocks = true ∧
    (lc_dorealloc three_blocks (LC_PTROF 8192) 20000 100 1 2 11).map
        (fun r => (r.2, lc_wellformed r.1, observe 4 r.1))
      = .ok (LC_PTROF 20000, true, 3, 4096, 12288, .ok [4096, 20000, 12288]) ∧
    ((lc_dorealloc three_blocks (LC_PTROF 8192) 20000 100 1 2 11 >>=
        fun r => lc_dofree r.1 r.2).map
        (fun s => (observe 4 s, prev_at s 12288, prev_at s 20000, lc_wellformed s)))
      = .ok ((2, 4096, 12288, .ok [4096, 12288]), some 20000, none, false) :=
  ⟨rfl, rfl, rfl, rfl⟩

/-- C17: with the blocks `A`, `B`, `C`, `lc_dofree` unlinks on the `next`
    side only.  Freeing the middle block `B` sets `A->next` to `C` but leaves
    `C->prev` at the address of `B` (the claim: `B->prev`, that is `A`);
    freeing the tail `C` sets `B->next` to null but leaves `last_blk` at the
    address of `C` (the claim: `C->prev`, that is `B`). -/
theorem lc_dofree_unlinks_one_side :
    (observe 4 three_blocks, [4096, 8192, 12288].map (prev_at three_blocks))
      = ((3, 4096, 12288, .ok [4096, 8192, 12288]), [some 0, some 4096, some 8192]) ∧
    (lc_dofree three_blocks (LC_PTROF 8192)).map
        (fun s => (observe 4 s, next_at s 4096, prev_at s 12288))
      = .ok ((2, 4096, 12288, .ok [4096, 12288]), some 12288, some 8192) ∧
    (lc_dofree three_blocks (LC_PTROF 12288)).map
        (fun s => (observe 4 s, next_at s 8192, s.last_blk, prev_at s 12288))
      = .ok ((2, 4096, 12288, .ok [4096, 8192]), some 0, 12288, none) :=
  ⟨rfl, rfl, rfl⟩

/-! ## The mutex on the return paths -/

/-- C14: entered with the mutex free on the registry of `A` and `B`, the
    calls that run to their last line return with the mutex free, and the
    three early returns do not: `lc_domalloc` and `lc_docalloc` when `malloc`
    fails, `lc_dorealloc` when `realloc` fails, and `lc_dorealloc` when
    `realloc` answers the same address all return with the mutex held. -/
theorem mtx_on_return_paths :
    two_blocks.mtx = false ∧
    (lc_domalloc two_blocks 12288 zeroed 7 1 2 10).map (fun r => (r.2, r.1.mtx))
      = .ok (LC_PTROF 12288, false) ∧
    (lc_docalloc two_blocks 12288 zeroed 7 1 2 10).map (fun r => (r.2, r.1.mtx))
      = .ok (LC_PTROF 12288, false) ∧
    (lc_dorealloc two_blocks (LC_PTROF 4096) 12288 100 1 2 11).map (fun r => (r.2, r.1.mtx))
      = .ok (LC_PTROF 12288, false) ∧
    (lc_dofree two_blocks (LC_PTROF 4096)).map (fun s => s.mtx) = .ok false ∧
    (lc_printblocks two_blocks 2).map (fun r => r.1.mtx) = .ok false ∧
    (lc_domalloc two_blocks 0 zeroed 7 1 2 10).map (fun r => (r.2, r.1.mtx))
      = .ok (0, true) ∧
    (lc_docalloc two_blocks 0 zeroed 7 1 2 10).map (fun r => (r.2, r.1.mtx))
      = .ok (0, true) ∧
    (lc_dorealloc two_blocks (LC_PTROF 4096) 0 100 1 2 11).map (fun r => (r.2, r.1.mtx))
      = .ok (0, true) ∧
    (lc_dorealloc two_blocks (LC_PTROF 4096) 4096 100 1 2 11).map (fun r => (r.2, r.1.mtx))
      = .ok (LC_PTROF 4096, true) :=
  ⟨rfl, rfl, rfl, rfl, rfl, rfl, rfl, rfl, rfl, rfl⟩

/-! ## The size of the request -/

/-- C19, refuted as stated: the size `SIZE_MOD - 1` is representable in
    `size_t`, and the request for it is 55 bytes, one byte less than the
    header alone, not the sum `LC_BLOCKSZ + size`. -/
theorem lc_request_wraps :
    SIZE_MOD - 1 < SIZE_MOD ∧
    lc_request (SIZE_MOD - 1) = 55 ∧
    lc_request (SIZE_MOD - 1) < LC_BLOCKSZ ∧
    ¬ (∀ n, n < SIZE_MOD → lc_request n = LC_BLOCKSZ + n) := by
  refine ⟨by decide, by decide, by decide, ?_⟩
  intro h
  exact absurd (h (SIZE_MOD - 1) (by decide)) (by decide)

/-- C19, amended: whenever the sum `LC_BLOCKSZ + size` is itself
    representable in `size_t`, the number of bytes requested from the
    allocator is exactly that sum. -/
theorem lc_request_no_wrap (n : Nat) (h : LC_BLOCKSZ + n < SIZE_MOD) :
    lc_request n = LC_BLOCKSZ + n :=
  Nat.mod_eq_of_lt h

/-- C19, amended, at the 23 bytes of `example.c`: 79 bytes are requested. -/
theorem lc_request_no_wrap_witness :
    LC_BLOCKSZ + 23 < SIZE_MOD ∧ lc_request 23 = 79 :=
  ⟨by decide, lc_request_no_wrap 23 (by decide)⟩

/-! ## The fatal path -/

/-- C12: let the header in front of `p` be readable.  When its `magic` is
    not `LC_MAGICNUMBER`, `lc_dofree (p)` and `lc_dorealloc (p, m, ...)` end
    in `csl_die` and return nothing, and the registry at the abort is the
    state `s` the call was entered with: storage with every header and link,
    `blk_count`, `head_blk`, `last_blk` and the mutex are all unchanged.
    When the `magic` matches, neither call ends in `csl_die`, in whatever
    state. -/
theorem lc_checkmagic_gate (s : State) (p : Nat) (b : lc_block)
    (hp : LC_BLKOF p ≠ 0) (hb : s.heap (LC_BLKOF p) = some b) :
    (b.magic ≠ LC_MAGICNUMBER →
      lc_dofree s p = .error (.die_free s) ∧
      ∀ na m function file line,
        lc_dorealloc s p na m function file line = .error (.die_realloc s)) ∧
    (b.magic = LC_MAGICNUMBER →
      (∀ s1, lc_dofree s p ≠ .error (.die_free s1)) ∧
      ∀ na m function file line s1,
        lc_dorealloc s p na m function file line ≠ .error (.die_realloc s1)) := by
  have hck : lc_checkmagic s p = .ok (decide (b.magic = LC_MAGICNUMBER)) := by
    simp [lc_checkmagic, load, hp, hb, bind, Except.bind, pure, Except.pure]
  constructor
  · intro hmag
    constructor
    · simp [lc_dofree, hck, hmag, bind, Except.bind, throw, throwThe, MonadExceptOf.throw]
    · intro na m function file line
      simp [lc_dorealloc, hck, hmag, bind, Except.bind, throw, throwThe, MonadExceptOf.throw]
  · intro hmag
    constructor
    · intro s0
      unfold lc_dofree
      rw [hck, ok_bind]
      simp only [hmag, decide_True, Bool.not_true, Bool.false_eq_true, if_false]
      refine bind_ne (LC_BEGINCRIT_not_die _ _).1 (fun s1 => ?_)
      refine bind_ne (load_not_die _ _ _).1 (fun b1 => ?_)
      refine bind_ne ?_ (fun s2 => pure_not_error _ _)
      split
      · exact (modify_not_die _ _ _ _).1
      · exact (modify_not_die _ _ _ _).1
    · intro na m function file line s0
      unfold lc_dorealloc
      rw [hck, ok_bind]
      simp only [hmag, decide_True, Bool.not_true, Bool.false_eq_true, if_false]
      refine bind_ne (LC_BEGINCRIT_not_die _ _).2 (fun s1 => ?_)
      refine bind_ne (load_not_die _ _ _).2 (fun b1 => ?_)
      refine bind_ne ?_ (fun s2 => ?_)
      · split <;> split <;>
          first
          | exact bind_ne (load_not_die _ _ _).2 (fun _ => pure_not_error _ _)
          | exact pure_not_error _ _
      split
      · exact pure_not_error _ _
      refine bind_ne (modify_not_die _ _ _ _).2 (fun s3 => ?_)
      split
      · exact pure_not_error _ _
      refine bind_ne ?_ (fun s4 => ?_)
      · split
        · exact (modify_not_die _ _ _ _).2
        · exact pure_not_error _ _
      refine bind_ne ?_ (fun s5 => pure_not_error _ _)
      split
      · exact (modify_not_die _ _ _ _).2
      · exact pure_not_error _ _

/-- C12, at two concrete pointers.  The first points into storage at 20000
    that holds zeros and sits beside the tracked blocks `A` and `B` without
    ever having been tracked: its free and its reallocation end in `csl_die`
    with the registry exactly as it was, count 2 and traversal `[A, B]`.
    The second is the tracked block `A` of the registry of `A` and `B`, whose
    free and reallocation do not end in `csl_die`. -/
theorem lc_checkmagic_gate_witness :
    (lc_dofree (put two_blocks 20000 zeroed) (LC_PTROF 20000)
        = .error (.die_free (put two_blocks 20000 zeroed)) ∧
      ∀ na m function file line,
        lc_dorealloc (put two_blocks 20000 zeroed) (LC_PTROF 20000) na m function file line
          = .error (.die_realloc (put two_blocks 20000 zeroed))) ∧
    observe 4 (put two_blocks 20000 zeroed) = (2, 4096, 8192, .ok [4096, 8192]) ∧
    ((∀ s1, lc_dofree two_blocks (LC_PTROF 4096) ≠ .error (.die_free s1)) ∧
      ∀ na m function file line s1,
        lc_dorealloc two_blocks (LC_PTROF 4096) na m function file line
          ≠ .error (.die_realloc s1)) :=
  ⟨(lc_checkmagic_gate (put two_blocks 20000 zeroed) (LC_PTROF 20000) zeroed
      (by decide) rfl).1 (by decide),
   rfl,
   (lc_checkmagic_gate two_blocks (LC_PTROF 4096)
      { size := 23, function := 1, file := 2, line := 8, prev := 0, next := 8192,
        magic := LC_MAGICNUMBER }
      (by decide) rfl).2 rfl⟩

/-! ## Failure of the underlying allocator -/

/-- C13: entered with the mutex free, when `malloc` fails (answers null)
    `lc_domalloc` and `lc_docalloc` return `NULL`, and the storage with every
    header in it, `head_blk`, `last_blk` and `blk_count` are the same as
    before the call. -/
theorem lc_domalloc_malloc_fails (s : State) (g : lc_block) (n function file line : Nat)
    (hm : s.mtx = false) :
    ∃ s1, lc_domalloc s 0 g n function file line = .ok (s1, 0) ∧
      lc_docalloc s 0 g n function file line = .ok (s1, 0) ∧
      s1.heap = s.heap ∧ s1.head_blk = s.head_blk ∧ s1.last_blk = s.last_blk ∧
      s1.blk_count = s.blk_count := by
  refine ⟨{ s with mtx := true }, ?_, ?_, rfl, rfl, rfl, rfl⟩
  · simp [lc_domalloc, LC_BEGINCRIT, hm, malloc, bind, Except.bind, pure, Except.pure]
  · simp [lc_docalloc, LC_BEGINCRIT, hm, malloc, bind, Except.bind, pure, Except.pure]

/-- C13, on the registry of `A` and `B`: a failing allocation of 7 bytes
    returns `NULL` and leaves the registry as it was. -/
theorem lc_domalloc_malloc_fails_witness :
    two_blocks.mtx = false ∧
    ∃ s1, lc_domalloc two_blocks 0 zeroed 7 1 2 10 = .ok (s1, 0) ∧
      lc_docalloc two_blocks 0 zeroed 7 1 2 10 = .ok (s1, 0) ∧
      s1.heap = two_blocks.heap ∧ s1.head_blk = two_blocks.head_blk ∧
      s1.last_blk = two_blocks.last_blk ∧ s1.blk_count = two_blocks.blk_count :=
  ⟨rfl, lc_domalloc_malloc_fails two_blocks zeroed 7 1 2 10 rfl⟩

/-! ## Appending a header -/

/-- C16: on a well-formed registry whose count can still grow, for a header
    `g` stored at a non-null address `blk` that is not the tail,
    `add_block (blk)` returns, `blk_count` has grown by exactly 1 and
    `last_blk` is `blk`.  If the registry was empty, `head_blk` is `blk` too
    and no header has changed.  Otherwise `head_blk` is unchanged, the
    previous tail differs from before in `next` only, which is `blk`, the new
    header differs from `g` in `prev` only, which is the previous tail, and
    every other header is unchanged. -/
theorem add_block_appends (s : State) (blk : Nat) (g : lc_block)
    (hwf : lc_wellformed s = true) (hc : s.blk_count + 1 < SIZE_MOD)
    (hb : blk ≠ 0) (hg : s.heap blk = some g) (hfresh : blk ≠ s.last_blk) :
    ∃ s1, add_block s blk = .ok s1 ∧ s1.blk_count = s.blk_count + 1 ∧ s1.last_blk = blk ∧
      (s.head_blk = 0 → s1.head_blk = blk ∧ s1.heap = s.heap) ∧
      (s.head_blk ≠ 0 → s1.head_blk = s.head_blk ∧
        (∃ t, s.heap s.last_blk = some t ∧
          s1.heap s.last_blk = some { t with next := blk }) ∧
        s1.heap blk = some { g with prev := s.last_blk } ∧
        ∀ x, x ≠ blk → x ≠ s.last_blk → s1.heap x = s.heap x) := by
  by_cases h0 : s.head_blk = 0
  · refine ⟨_, add_block_empty s blk h0, Nat.mod_eq_of_lt hc, rfl, fun _ => ⟨rfl, rfl⟩, ?_⟩
    intro h
    exact absurd h0 h
  · obtain ⟨hl, t, ht⟩ := lc_wellformed_tail s hwf h0
    refine ⟨_, add_block_append s blk t g h0 hl ht hb hg hfresh, Nat.mod_eq_of_lt hc, rfl,
      fun h => absurd h h0, fun _ => ⟨rfl, ⟨t, ht, ?_⟩, ?_, ?_⟩⟩
    · simp [Ne.symm hfresh]
    · simp
    · intro x hx1 hx2
      simp [hx1, hx2]

/-- C16, at two concrete registries, each with a header of zeros stored at
    12288: the empty one, and the one of `A` and `B`, whose tail is `B` at
    8192. -/
theorem add_block_appends_witness :
    (∃ s1, add_block (put lc_initial 12288 zeroed) 12288 = .ok s1 ∧
      s1.blk_count = 1 ∧ s1.last_blk = 12288 ∧ s1.head_blk = 12288) ∧
    (∃ s1, add_block (put two_blocks 12288 zeroed) 12288 = .ok s1 ∧
      s1.blk_count = 3 ∧ s1.last_blk = 12288 ∧ s1.head_blk = 4096 ∧
      next_at s1 8192 = some 12288 ∧ prev_at s1 12288 = some 8192) := by
  obtain ⟨s1, h1, h2, h3, h4, -⟩ :=
    add_block_appends (put lc_initial 12288 zeroed) 12288 zeroed rfl (by decide) (by decide)
      rfl (by decide)
  obtain ⟨s2, k1, k2, k3, -, k5⟩ :=
    add_block_appends (put two_blocks 12288 zeroed) 12288 zeroed rfl (by decide) (by decide)
      rfl (by decide)
  obtain ⟨k6, ⟨t, kt, k7⟩, k8, -⟩ := k5 (by decide)
  refine ⟨⟨s1, h1, h2, h3, (h4 rfl).1⟩, ⟨s2, k1, k2, k3, k6, ?_, ?_⟩⟩
  · have e : (put two_blocks 12288 zeroed).last_blk = 8192 := rfl
    rw [e] at k7
    simp [next_at, k7]
  · simp only [prev_at, k8]
    rfl

/-! ## The header of a fresh allocation -/

/-- With the mutex free and a traversal from `head_blk` that visits the
    headers `L` and ends, `lc_deinit` returns; it writes something exactly
    when `blk_count` is not 0; and what it writes then is the summary line
    with the count `blk_count`, followed by one record for each header of
    `L`, in the order of `L`, with the address, size, file, line and function
    of that header. -/
theorem lc_deinit_report (s : State) (fuel : Nat) (L : List Nat) (hm : s.mtx = false)
    (hL : lc_traverse s fuel s.head_blk = .ok L) :
    ∃ s1 out, lc_deinit s fuel = .ok (s1, out) ∧ (out ≠ [] ↔ s.blk_count ≠ 0) ∧
      (s.blk_count ≠ 0 → ∃ recs, out = Output.summary s.blk_count :: recs ∧
        List.Forall₂ (fun x r => ∃ b, s.heap x = some b ∧
          r = Output.block x b.size b.file b.line b.function) L recs) := by
  by_cases hc : s.blk_count = 0
  · refine ⟨s, [], by simp [lc_deinit, hc, pure, Except.pure], by simp [hc], ?_⟩
    intro h
    exact absurd hc h
  · obtain ⟨recs, hp, hf⟩ :=
      print_loop_of_traverse s { s with mtx := true } rfl fuel s.head_blk L hL
    have e : LC_BEGINCRIT s = .ok { s with mtx := true } := by simp [LC_BEGINCRIT, hm]
    refine ⟨LC_ENDCRIT { s with mtx := true }, Output.summary s.blk_count :: recs, ?_,
      by simp [hc], fun _ => ⟨recs, rfl, hf⟩⟩
    unfold lc_deinit lc_printblocks
    simp only [ne_eq, hc, not_false_eq_true, if_true]
    rw [e, ok_bind]
    simp only [hp, ok_bind]
    rfl

/-- C15: the run of `example.c` (`lc_init`, 23 bytes allocated at the site
    (`main`, `example.c`, 8) with the strings at the addresses 1 and 2,
    `lc_deinit`) writes the summary with the count 1 and one record with size
    23 and that site.  But when, between the allocation and `lc_deinit`, a
    further allocation fails in `malloc`, or a block is reallocated in
    place, that call returns with the mutex held; `blk_count` is not 0, and
    `lc_deinit` then stops in `lc_printblocks` at the lock of the mutex: no
    record is written and the call does not return. -/
theorem lc_deinit_after_early_return :
    lc_init lc_initial 0 = (lc_initial, 0) ∧
    (run (lc_init lc_initial 0).1 [alloc_A]).map
        (fun s => (s.blk_count, s.mtx, (lc_deinit s 1).map Prod.snd))
      = .ok (1, false, .ok [Output.summary 1, Output.block 4096 23 2 8 1]) ∧
    (run (lc_init lc_initial 0).1 [alloc_A, .domalloc 0 zeroed 5 1 2 9]).map
        (fun s => (s.blk_count, s.mtx, (lc_deinit s 1).map Prod.snd))
      = .ok (1, true, .error .deadlock) ∧
    (run (lc_init lc_initial 0).1
        [alloc_A, alloc_B, .dorealloc (LC_PTROF 4096) 4096 100 1 2 11]).map
        (fun s => (s.blk_count, s.mtx, (lc_deinit s 2).map Prod.snd))
      = .ok (2, true, .error .deadlock) :=
  ⟨rfl, rfl, rfl, rfl⟩

/-! ## Allocations only -/

/-- C20: from the empty registry, let `cs` be calls of `lc_domalloc` and
    `lc_docalloc` only, fewer than `SIZE_MOD` of them, each for a size whose
    request `LC_BLOCKSZ + size` does not wrap, each answered by `malloc` with
    a non-null address, all addresses distinct.  Then every call returns a
    non-null pointer, `lc_countallocations ()` is the number of calls, and
    the traversal from `lc_getallocations ()` with `lc_nextblock` yields
    exactly the headers of the returned pointers, in the order of the calls,
    and then null. -/
theorem lc_traverse_of_allocations (cs : List Call)
    (hall : ∀ c ∈ cs, is_alloc c = true) (hnz : ∀ c ∈ cs, alloc_addr c ≠ 0)
    (hsz : ∀ c ∈ cs, LC_BLOCKSZ + alloc_size c < SIZE_MOD)
    (hnd : (cs.map alloc_addr).Nodup) (hlen : cs.length < SIZE_MOD) :
    ∃ s ptrs, run_ptrs lc_initial cs = .ok (s, ptrs) ∧ ptrs.length = cs.length ∧
      (∀ p ∈ ptrs, p ≠ 0) ∧
      lc_countallocations s = cs.length ∧
      lc_traverse s cs.length (lc_getallocations s) = .ok (ptrs.map LC_BLKOF) := by
  obtain ⟨s, hrun, hr⟩ := run_ptrs_allocations cs lc_initial [] registry_of_initial hall hnz
    hsz (by simpa using hnd) (by simpa using hlen)
  simp only [List.nil_append] at hr
  obtain ⟨-, hc, hh, -, hch, hz, -⟩ := hr
  have hmap : (cs.map (fun c => LC_PTROF (alloc_addr c))).map LC_BLKOF = cs.map alloc_addr := by
    simp [LC_BLKOF, LC_PTROF]
  refine ⟨s, _, hrun, by simp, ?_, by simpa using hc, ?_⟩
  · intro p hp
    simp only [List.mem_map] at hp
    obtain ⟨c, -, rfl⟩ := hp
    simp [LC_PTROF, LC_BLOCKSZ]
  · rw [hmap]
    have ht := lc_traverse_of_next_chain s (cs.map alloc_addr) hch hz
    rw [List.length_map, ← hh] at ht
    exact ht

/-- C20, at three calls: `lc_domalloc` of 23 bytes answered with 4096,
    `lc_docalloc` of 5 bytes answered with 8192, `lc_domalloc` of 7 bytes
    answered with 12288.  The count is 3 and the traversal yields the three
    headers in this order. -/
theorem lc_traverse_of_allocations_witness :
    ∃ s ptrs, run_ptrs lc_initial [alloc_A, .docalloc 8192 zeroed 5 1 2 9, alloc_C]
        = .ok (s, ptrs) ∧ ptrs.length = 3 ∧ (∀ p ∈ ptrs, p ≠ 0) ∧
      lc_countallocations s = 3 ∧
      lc_traverse s 3 (lc_getallocations s) = .ok (ptrs.map LC_BLKOF) :=
  lc_traverse_of_allocations [alloc_A, .docalloc 8192 zeroed 5 1 2 9, alloc_C]
    (by decide) (by decide) (by decide) (by decide) (by decide)

end Leakchk
